import Mathlib

/-!
Shallow embedding of the vscode-forester external-process query/command
subsystem (src/server.ts) and its completion front end (extension entry
point): the JSON response normalizer, the process runner outcome
classification, the one-shot command executor, the trigger-syntax context
matcher and the completion synthesizer.  Machine-level details that the
claims do not touch (VS Code API plumbing, the file watcher, the LSP
branch) are out of scope.
-/

namespace Forester

/-- Parsed JSON values, the result of a successful JSON.parse of the query
process's stdout.  Object fields are kept in the object's iteration order
(the order Object.entries enumerates).  JSON numbers are doubles in
JavaScript; the claims never inspect numeric values, an integer carrier
suffices. -/
inductive Json where
  | null : Json
  | bool (b : Bool) : Json
  | num (n : Int) : Json
  | str (s : String) : Json
  | arr (elems : List Json) : Json
  | obj (fields : List (String × Json)) : Json

/-- JavaScript object-literal property assignment: update the value of an
existing key in place, else append the new property at the end. -/
def setField : List (String × Json) → String → Json → List (String × Json)
  | [], k, v => [(k, v)]
  | (k0, v0) :: rest, k, v =>
    if k0 = k then (k0, v) :: rest else (k0, v0) :: setField rest k v

/-- The own enumerable properties contributed by spreading a JavaScript
value into an object literal: an object's fields, an array's or string's
index properties, nothing for other primitives.  (Spreading null or
undefined contributes nothing; Object.entries is the one that throws on
null, see objectEntries.) -/
def spreadFields : Json → List (String × Json)
  | .obj fs => fs
  | .arr xs => xs.enum.map (fun p => (toString p.1, p.2))
  | .str s => s.data.enum.map (fun p => (toString p.1, Json.str (String.singleton p.2)))
  | _ => []

/-- Object.entries on the parsed value (the old-format branch of
queryForest).  Strings enumerate index properties; numbers and booleans
have none.  On null, JavaScript throws a TypeError; that input never
reaches this branch in any claim and is modelled as the empty
enumeration. -/
def objectEntries : Json → List (String × Json)
  | .obj fs => fs
  | .str s => s.data.enum.map (fun p => (toString p.1, Json.str (String.singleton p.2)))
  | _ => []

/-- The object literal of server.ts line 76: uri first, then the
spread of the entry value, later assignments overriding earlier ones. -/
def spreadMerge (id : String) (fs : List (String × Json)) : List (String × Json) :=
  fs.foldl (fun acc p => setField acc p.1 p.2) [("uri", Json.str id)]

/-- Response normalization, the success branch of queryForest (server.ts
lines 72-77): an array is the new query format and is returned as-is; any
other shape is the old format, one entry per key of Object.entries,
each entry the merge of the key as uri with the value's fields. -/
def normalize (j : Json) : List Json :=
  match j with
  | .arr xs => xs
  | _ => (objectEntries j).map (fun p => Json.obj (spreadMerge p.1 (spreadFields p.2)))

/-- Property lookup on a parsed JSON object: the first field with the key
(a JavaScript object holds each key once). -/
def jsonLookup (j : Json) (k : String) : Option Json :=
  match j with
  | .obj fs => fs.lookup k
  | _ => none

/-! ### Process runner (queryForest, server.ts lines 29-87)

The spawned process is observed through its events: stdout and stderr
data chunks accumulate into buffers, then exactly one terminal event
settles the promise — the spawn error handler, the close handler with the
exit code and signal, or the 30000 ms timer.  A terminal event carries
everything the handlers can read at that moment, so a run is a pair of
chunk lists plus the terminal event. -/

/-- The terminal event of one spawned query process. -/
inductive TermEvent where
  | spawnError (message : String) : TermEvent
  | close (code : Option Int) (signal : Option String) : TermEvent
  | timeout : TermEvent

/-- One observed run of the spawned query process: the stdout and stderr
chunks delivered before the terminal event, and the terminal event. -/
structure ProcRun where
  stdoutChunks : List String
  stderrChunks : List String
  term : TermEvent

/-- The spec's QueryOutcome: the message the promise resolves with on
failure, together with the stdout and stderr buffers captured so far
(the buffers the failure branch of queryForest appends to the surfaced
error message, server.ts line 79). -/
inductive QueryOutcome where
  | success (forest : List Json) : QueryOutcome
  | failure (message stdout stderr : String) : QueryOutcome

/-- JavaScript template-literal rendering of the close event's exit code
(a number, or null when the process was killed by a signal). -/
def jsShowCode : Option Int → String
  | none => "null"
  | some n => toString n

/-- JavaScript template-literal rendering of the close event's signal
(a signal name, or null on a normal exit). -/
def jsShowSignal : Option String → String
  | none => "null"
  | some s => s

/-- Outcome classification of queryForest (server.ts lines 45-77): the
timer resolves with the timeout message; the error handler resolves with
the spawn error's message; the close handler fails when a signal is
present or the code is not 0, and otherwise parses stdout as JSON and
normalizes, failing when the parse fails.  JSON.parse is library code,
passed in as a function returning none exactly on a parse error. -/
def runOutcome (parse : String → Option Json) (r : ProcRun) : QueryOutcome :=
  let stdout := String.join r.stdoutChunks
  let stderr := String.join r.stderrChunks
  match r.term with
  | .timeout => .failure "Forester timed out after 30s" stdout stderr
  | .spawnError msg => .failure msg stdout stderr
  | .close code signal =>
    if signal ≠ none ∨ code ≠ some 0 then
      .failure ("Forester: process exited with code " ++ jsShowCode code
        ++ " and signal " ++ jsShowSignal signal ++ ".") stdout stderr
    else
      match parse stdout with
      | some j => .success (normalize j)
      | none => .failure ("Forester didn't return a valid JSON response:\n" ++ stdout)
          stdout stderr

/-- The composite message surfaced to the user on a query failure
(server.ts line 79): the resolve message, then the stdout buffer when
non-empty, then the stderr buffer when non-empty. -/
def queryErrorMessage (m so se : String) : String :=
  m ++ (if so = "" then "" else "\n\n" ++ so) ++ (if se = "" then "" else "\n\n" ++ se)

/-- queryForest's returned forest (server.ts lines 72-86): the normalized
entries on success, the empty array on any failure.  The function is
total — every failure resolves to a value, nothing is thrown past this
boundary. -/
def queryForest (parse : String → Option Json) (r : ProcRun) : List Json :=
  match runOutcome parse r with
  | .success f => f
  | .failure _ _ _ => []

/-! ### Command executor (command, server.ts lines 89-116) -/

/-- Result of util.promisify(child_process.execFile): resolves with the
captured stdout and stderr when the process exits with code 0; rejects
with an Error when the exit code is non-zero, the process is killed by a
signal, or the spawn fails.  The rejection carries the error's string
rendering (e.toString(), never empty for these errors: Node prefixes
"Error: ...") and the partial stdout and stderr captured so far (empty
strings when absent). -/
inductive ExecResult where
  | ok (stdout stderr : String) : ExecResult
  | err (message stdout stderr : String) : ExecResult

/-- The command function (server.ts lines 98-115): on resolution, surface
stderr as an error message when non-empty and return stdout; on
rejection, surface one formatted message — the error text, then any
partial stdout, then any partial stderr — and return no result.  The
first component is the returned value, the second the list of error
messages shown to the user. -/
def command (res : ExecResult) : Option String × List String :=
  match res with
  | .ok stdout stderr => (some stdout, if stderr = "" then [] else [stderr])
  | .err msg stdout stderr =>
    (none,
     [msg ++ (if stdout = "" then "" else "\n\n" ++ stdout)
        ++ (if stderr = "" then "" else "\n\n" ++ stderr)])

/-- The value the forester.new handler works with: the command's result
with optional chaining into trim ((await command([...]))?.trim()). -/
def commandTrimmed (res : ExecResult) : Option String :=
  (command res).1.map String.trim

/-! ### Context matcher

The completion provider's regular expression over the text from the start
of the line to the cursor:

  (?:BACKSLASH transclude LBRACE | BACKSLASH import LBRACE |
   BACKSLASH export LBRACE | BACKSLASH ref LBRACE) GROUP1 $
  | LBRACKET [^LBRACKET]* RBRACKET LPAREN GROUP2 $
  | LBRACKET LBRACKET GROUP3 $

with GROUP1 the non-RBRACE characters, GROUP2 the non-RPAREN characters
and GROUP3 the non-RBRACKET characters up to the end.  exec with no g
flag finds the leftmost-starting match, trying the three alternatives in
order at each position; the second alternative's inner star is greedy, so
the longest link-text run that still leaves a valid tail wins.  The match
result used by the provider is the start offset of the one defined
capture group: everything from there to the cursor is the partial text
and the replacement range. -/

def opTransclude : List Char := ['\\', 't', 'r', 'a', 'n', 's', 'c', 'l', 'u', 'd', 'e', '{']

def opImport : List Char := ['\\', 'i', 'm', 'p', 'o', 'r', 't', '{']

def opExport : List Char := ['\\', 'e', 'x', 'p', 'o', 'r', 't', '{']

def opRef : List Char := ['\\', 'r', 'e', 'f', '{']

/-- The four literal command openers, in the alternation's order. -/
def openers : List (List Char) := [opTransclude, opImport, opExport, opRef]

/-- Literal prefix matching: the rest of the text after the prefix, or
none when the text does not start with it. -/
def stripPrefixChars : List Char → List Char → Option (List Char)
  | [], s => some s
  | _ :: _, [] => none
  | c :: cs, d :: ds => if c = d then stripPrefixChars cs ds else none

/-- First alternative at the current position: one of the four command
openers, then only non-RBRACE characters to the end.  Returns the capture
group's start offset relative to the position. -/
def alt1 (s : List Char) : Option Nat :=
  openers.findSome? (fun op =>
    match stripPrefixChars op s with
    | some rest => if rest.all (fun c => c != '}') then some op.length else none
    | none => none)

/-- Whether the tail of the second alternative matches here: RBRACKET,
LPAREN, then only non-RPAREN characters to the end. -/
def alt2Accept : List Char → Bool
  | ']' :: '(' :: v => v.all (fun c => c != ')')
  | _ => false

/-- Body of the second alternative after its opening LBRACKET: consume a
run of non-LBRACKET link-text characters (greedy: a longer run that still
matches wins over a shorter one), then the RBRACKET-LPAREN tail.  Returns
the length of the consumed run. -/
def alt2Go : List Char → Nat → Option Nat
  | [], _ => none
  | c :: rest, j =>
    match (if c != '[' then alt2Go rest (j + 1) else none) with
    | some r => some r
    | none => if alt2Accept (c :: rest) then some j else none

/-- Second alternative at the current position: the markdown-style link
target.  Returns the capture group's start offset relative to the
position (opening bracket, link text, closing bracket and parenthesis). -/
def alt2 : List Char → Option Nat
  | '[' :: mid =>
    match alt2Go mid 0 with
    | some j => some (j + 3)
    | none => none
  | _ => none

/-- Third alternative at the current position: the wiki-style link
opener, two LBRACKETs, then only non-RBRACKET characters to the end. -/
def alt3 : List Char → Option Nat
  | '[' :: '[' :: rest => if rest.all (fun c => c != ']') then some 2 else none
  | _ => none

/-- The three alternatives tried in the alternation's order at one
position. -/
def altsAt (s : List Char) : Option Nat :=
  match alt1 s with
  | some i => some i
  | none =>
    match alt2 s with
    | some i => some i
    | none => alt3 s

/-- Leftmost-match scan of exec: try the alternation at each position
from the left, first success wins.  Returns the absolute start offset of
the defined capture group. -/
def scanMatch : List Char → Nat → Option Nat
  | [], _ => none
  | c :: rest, p =>
    match altsAt (c :: rest) with
    | some off => some (p + off)
    | none => scanMatch rest (p + 1)

/-- tagPattern.exec on the line prefix, reduced to the one datum the
provider uses: the start offset of the defined capture group (on a match
exactly one of the three groups is defined, so the pos.character
fallback of the provider is unreachable). -/
def tagMatch (text : String) : Option Nat :=
  scanMatch text.toList 0

/-! ### Completion synthesizer (suggest and provideCompletionItems) -/

/-- One tree of the forest as typed by server.ts (ForesterTree): nullable
title and taxon, tags, route, metadata mapping, source path and the uri
identifier. -/
structure ForesterTree where
  title : Option String
  taxon : Option String
  tags : List String
  route : String
  metas : List (String × String)
  sourcePath : String
  uri : String

/-- The one completion item kind suggest uses
(vscode.CompletionItemKind.Value). -/
inductive CompletionItemKind where
  | value : CompletionItemKind

/-- The fields of the vscode.CompletionItem that suggest fills in,
polymorphic in the editor's range type, which suggest never inspects. -/
structure CompletionItem (α : Type) where
  labelText : String
  labelDescription : String
  kind : CompletionItemKind
  range : α
  insertText : String
  filterText : String
  detail : String
  documentation : Option String

/-- The suggest function: one completion item per entry, in the entries'
order.  showID is the completion.showID configuration read at the top of
the function. -/
def suggest {α : Type} (trees : List ForesterTree) (range : α) (showID : Bool) :
    List (CompletionItem α) :=
  trees.map (fun entry =>
    let id := entry.uri
    { labelText :=
        match entry.title with
        | none => "[" ++ id ++ "]"
        | some t => if showID then "[" ++ id ++ "] " ++ t else t
      labelDescription := entry.taxon.getD ""
      kind := .value
      range := range
      insertText := id
      filterText := id ++ " " ++ entry.title.getD "" ++ " " ++ entry.taxon.getD ""
      detail := entry.taxon.getD "Tree" ++ " [" ++ id ++ "]"
      documentation := entry.title })

/-- A position of the editor line-character grid. -/
structure VPos where
  line : Nat
  char : Nat
deriving DecidableEq

/-- A replacement range between two positions. -/
structure VRange where
  startPos : VPos
  endPos : VPos
deriving DecidableEq

/-- The completion provider on one keystroke: text is the document text
from the start of the cursor's line to the cursor (so the cursor's
character is text.length).  When the pattern does not match, the empty
item list is returned at once; only on a match is the forest requested
from the cache and handed to suggest with the range from the capture
group's start to the cursor.  The second component records whether
getForest was invoked. -/
def provideCompletionItems (line : Nat) (text : String)
    (forest : List ForesterTree) (showID : Bool) :
    List (CompletionItem VRange) × Bool :=
  match tagMatch text with
  | none => ([], false)
  | some ix =>
    (suggest forest (VRange.mk (VPos.mk line ix) (VPos.mk line text.length)) showID, true)

/-! ### Helper lemmas -/

/-- String append acts as list append on the character data. -/
theorem str_data_append (a b : String) : (a ++ b).data = a.data ++ b.data := by
  cases a
  cases b
  rfl

/-- A string with a non-empty left part of an append is non-empty. -/
theorem str_append_ne_empty_left (a b : String) (ha : a ≠ "") : a ++ b ≠ "" := by
  intro h
  apply ha
  have hd : (a ++ b).data = ([] : List Char) := by
    rw [h]
  rw [str_data_append] at hd
  have hA : a.data = [] := (List.append_eq_nil.mp hd).1
  exact String.ext hA

/-! ### C1: every query failure yields the empty forest -/

/-- C1: for every failure of the query operation — timeout, spawn error,
non-zero exit code, signal termination, or JSON parse failure on a clean
exit — queryForest resolves to a value (it is a total function of the
observed run) and that value is the empty forest. -/
theorem queryForest_failure_returns_empty (parse : String → Option Json) (r : ProcRun)
    (h : r.term = .timeout
       ∨ (∃ m, r.term = .spawnError m)
       ∨ (∃ c s, r.term = .close c s ∧ (s ≠ none ∨ c ≠ some 0))
       ∨ (r.term = .close (some 0) none ∧ parse (String.join r.stdoutChunks) = none)) :
    queryForest parse r = [] := by
  unfold queryForest runOutcome
  rcases h with h | ⟨m, h⟩ | ⟨c, s, h, hcs⟩ | ⟨h, hp⟩
  · rw [h]
  · rw [h]
  · rw [h]
    simp only [if_pos hcs]
  · rw [h]
    simp only [ne_eq, not_true_eq_false, or_self, if_neg, not_false_eq_true]
    rw [hp]

/-- Witness for C1 at a concrete timed-out run. -/
theorem queryForest_failure_returns_empty_witness :
    ((ProcRun.mk ["half"] ["warn"] .timeout).term = TermEvent.timeout
       ∨ (∃ m, (ProcRun.mk ["half"] ["warn"] .timeout).term = .spawnError m)
       ∨ (∃ c s, (ProcRun.mk ["half"] ["warn"] .timeout).term = .close c s ∧ (s ≠ none ∨ c ≠ some 0))
       ∨ ((ProcRun.mk ["half"] ["warn"] .timeout).term = .close (some 0) none
           ∧ (fun _ => (none : Option Json)) (String.join ["half"]) = none))
    ∧ queryForest (fun _ => none) (ProcRun.mk ["half"] ["warn"] .timeout) = [] :=
  ⟨Or.inl rfl,
   queryForest_failure_returns_empty (fun _ => none) (ProcRun.mk ["half"] ["warn"] .timeout)
     (Or.inl rfl)⟩

/-! ### C2: the timeout outcome -/

/-- C2 counterexample: the claim says the timeout Failure's raw stdout
and stderr components are both empty; but the buffers captured before the
timer fired are what the failure carries (and what line 79 appends to the
surfaced message), so a process that wrote "x" to stdout before timing
out yields a Failure whose stdout component is "x", not "". -/
theorem timeout_stdout_not_empty_cex :
    runOutcome (fun _ => none) (ProcRun.mk ["x"] [] .timeout)
      = .failure "Forester timed out after 30s" "x" ""
    ∧ ("x" : String) ≠ ""
    ∧ queryErrorMessage "Forester timed out after 30s" "x" ""
        = "Forester timed out after 30s\n\nx" := by
  refine ⟨rfl, by decide, rfl⟩

/-- C2 amended: if the process has not exited when the 30000 ms timer
fires, the outcome is a Failure whose message is exactly
"Forester timed out after 30s" (so it contains "timed out after 30s"),
carrying whatever stdout and stderr were captured before the timeout —
these are empty only when the process produced no output. -/
theorem timeout_outcome (parse : String → Option Json) (r : ProcRun)
    (h : r.term = .timeout) :
    runOutcome parse r
      = .failure "Forester timed out after 30s"
          (String.join r.stdoutChunks) (String.join r.stderrChunks)
    ∧ ("timed out after 30s").data <:+: ("Forester timed out after 30s").data := by
  constructor
  · unfold runOutcome
    rw [h]
  · exact ⟨"Forester ".data, [], by decide⟩

/-- Witness for C2's amended theorem at a concrete silent run. -/
theorem timeout_outcome_witness :
    (ProcRun.mk [] [] .timeout).term = TermEvent.timeout
    ∧ (runOutcome (fun _ => none) (ProcRun.mk [] [] .timeout)
        = .failure "Forester timed out after 30s"
            (String.join []) (String.join [])
       ∧ ("timed out after 30s").data <:+: ("Forester timed out after 30s").data) :=
  ⟨rfl, timeout_outcome (fun _ => none) (ProcRun.mk [] [] .timeout) rfl⟩

/-! ### C6: the exit-failure outcome -/

/-- C6 counterexample: for exit code 2 the Failure's message is
"Forester: process exited with code 2 and signal null." — it contains
"process exited with code 2 and signal null" (and in particular "2") but
is not equal to it: the code prepends "Forester: " and appends a
period. -/
theorem exit_message_not_bare_cex :
    runOutcome (fun _ => none) (ProcRun.mk [] [] (.close (some 2) none))
      = .failure "Forester: process exited with code 2 and signal null." "" ""
    ∧ ("Forester: process exited with code 2 and signal null." : String)
        ≠ "process exited with code 2 and signal null" := by
  refine ⟨rfl, by decide⟩

/-- C6 amended: if the query process exits with a non-zero code or was
terminated by a signal, the outcome is a Failure carrying the stdout and
stderr captured so far, whose message is
"Forester: process exited with code <code> and signal <signal>." — in
particular it contains "process exited with code <code> and signal
<signal>", hence contains the rendered exit code. -/
theorem exit_failure_message (parse : String → Option Json) (r : ProcRun)
    (code : Option Int) (signal : Option String)
    (hterm : r.term = .close code signal)
    (hfail : signal ≠ none ∨ code ≠ some 0) :
    runOutcome parse r
      = .failure ("Forester: process exited with code " ++ jsShowCode code
          ++ " and signal " ++ jsShowSignal signal ++ ".")
          (String.join r.stdoutChunks) (String.join r.stderrChunks)
    ∧ ("process exited with code " ++ jsShowCode code
          ++ " and signal " ++ jsShowSignal signal).data
        <:+: ("Forester: process exited with code " ++ jsShowCode code
          ++ " and signal " ++ jsShowSignal signal ++ ".").data := by
  constructor
  · unfold runOutcome
    rw [hterm]
    simp only [if_pos hfail]
  · refine ⟨"Forester: ".data, ".".data, ?_⟩
    rw [str_data_append, str_data_append, str_data_append, str_data_append,
      str_data_append]
    simp [List.append_assoc]

/-- Witness for C6's amended theorem at exit code 2 with no signal; the
rendered message indeed contains the digit 2. -/
theorem exit_failure_message_witness :
    ((ProcRun.mk ["out"] ["err"] (.close (some 2) none)).term
        = TermEvent.close (some 2) none
     ∧ ((none : Option String) ≠ none ∨ (some (2 : Int)) ≠ some 0))
    ∧ (runOutcome (fun _ => none) (ProcRun.mk ["out"] ["err"] (.close (some 2) none))
        = .failure ("Forester: process exited with code " ++ jsShowCode (some 2)
            ++ " and signal " ++ jsShowSignal none ++ ".")
            (String.join ["out"]) (String.join ["err"])
       ∧ ("process exited with code " ++ jsShowCode (some 2)
            ++ " and signal " ++ jsShowSignal none).data
          <:+: ("Forester: process exited with code " ++ jsShowCode (some 2)
            ++ " and signal " ++ jsShowSignal none ++ ".").data) :=
  ⟨⟨rfl, by decide⟩,
   exit_failure_message (fun _ => none) (ProcRun.mk ["out"] ["err"] (.close (some 2) none))
     (some 2) none rfl (by decide)⟩

/-! ### C9: the command executor -/

/-- C9: run on a command that exits 0 with empty stderr, the command
executor returns the trimmed stdout (the forester.new call site applies
?.trim()) and surfaces no error; run on a command that exits 1 — so the
promisified execFile rejects with a non-empty error rendering — it
returns no result, and exactly one non-empty formatted diagnostic
combining the error text with any partial stdout and stderr is
surfaced. -/
theorem command_executor_spec (stdout pso pse msg : String) (hmsg : msg ≠ "") :
    commandTrimmed (.ok stdout "") = some stdout.trim
    ∧ (command (.ok stdout "")).2 = []
    ∧ commandTrimmed (.err msg pso pse) = none
    ∧ (command (.err msg pso pse)).2
        = [msg ++ (if pso = "" then "" else "\n\n" ++ pso)
             ++ (if pse = "" then "" else "\n\n" ++ pse)]
    ∧ msg ++ (if pso = "" then "" else "\n\n" ++ pso)
        ++ (if pse = "" then "" else "\n\n" ++ pse) ≠ "" := by
  refine ⟨rfl, by simp [command], rfl, rfl, ?_⟩
  exact str_append_ne_empty_left _ _ (str_append_ne_empty_left _ _ hmsg)

/-- Witness for C9 at a concrete created-file path and a concrete exec
failure. -/
theorem command_executor_spec_witness :
    ("Error: Command failed: forester new" : String) ≠ ""
    ∧ (commandTrimmed (.ok " trees/abc-0001.tree\n" "") = some (" trees/abc-0001.tree\n").trim
       ∧ (command (.ok " trees/abc-0001.tree\n" "")).2 = []
       ∧ commandTrimmed (.err "Error: Command failed: forester new" "" "fatal: no config") = none
       ∧ (command (.err "Error: Command failed: forester new" "" "fatal: no config")).2
           = ["Error: Command failed: forester new"
                ++ (if ("" : String) = "" then "" else "\n\n" ++ "")
                ++ (if ("fatal: no config" : String) = "" then ""
                    else "\n\n" ++ "fatal: no config")]
       ∧ "Error: Command failed: forester new"
            ++ (if ("" : String) = "" then "" else "\n\n" ++ "")
            ++ (if ("fatal: no config" : String) = "" then ""
                else "\n\n" ++ "fatal: no config") ≠ "") :=
  ⟨by decide,
   command_executor_spec " trees/abc-0001.tree\n" "" "fatal: no config"
     "Error: Command failed: forester new" (by decide)⟩

/-! ### C3: object-shaped responses normalize to one entry per key -/

/-- Assigning a key other than "uri" leaves the "uri" lookup unchanged. -/
theorem lookup_setField_ne (acc : List (String × Json)) (k : String) (v : Json)
    (hk : k ≠ "uri") :
    (setField acc k v).lookup "uri" = acc.lookup "uri" := by
  have hbeq : ("uri" == k) = false := beq_eq_false_iff_ne.mpr (Ne.symm hk)
  induction acc with
  | nil =>
    simp only [setField, List.lookup, hbeq]
  | cons p rest ih =>
    obtain ⟨k0, v0⟩ := p
    by_cases h0 : k0 = k
    · subst h0
      simp only [setField, if_pos rfl]
      simp only [List.lookup, hbeq]
    · simp only [setField, if_neg h0]
      by_cases hu : k0 = "uri"
      · subst hu
        simp [List.lookup]
      · simp only [List.lookup]
        have : ("uri" == k0) = false := by
          simp [Ne.symm hu]
        rw [this]
        exact ih

/-- Folding assignments whose keys are never "uri" preserves the "uri"
lookup of the accumulator. -/
theorem lookup_foldl_setField (fs : List (String × Json))
    (hfs : ∀ p ∈ fs, p.1 ≠ "uri") (acc : List (String × Json)) (v : Json)
    (hacc : acc.lookup "uri" = some v) :
    (fs.foldl (fun a p => setField a p.1 p.2) acc).lookup "uri" = some v := by
  induction fs generalizing acc with
  | nil => exact hacc
  | cons p rest ih =>
    simp only [List.foldl_cons]
    refine ih (fun q hq => hfs q (List.mem_cons_of_mem p hq)) _ ?_
    rw [lookup_setField_ne _ _ _ (hfs p (List.mem_cons_self p rest))]
    exact hacc

/-- The merged entry of the old query format keeps the key as its uri as
long as the value's spread fields do not themselves assign "uri". -/
theorem lookup_spreadMerge (id : String) (fs : List (String × Json))
    (hfs : ∀ p ∈ fs, p.1 ≠ "uri") :
    (spreadMerge id fs).lookup "uri" = some (Json.str id) := by
  unfold spreadMerge
  exact lookup_foldl_setField fs hfs _ _ (by simp [List.lookup])

/-- Pointwise relation between a list and its map. -/
theorem forall2_map_self {α β : Type} (R : α → β → Prop) (g : α → β) (l : List α)
    (h : ∀ x ∈ l, R x (g x)) : List.Forall₂ R l (l.map g) := by
  induction l with
  | nil => exact List.Forall₂.nil
  | cons x xs ih =>
    exact List.Forall₂.cons (h x (List.mem_cons_self x xs))
      (ih (fun y hy => h y (List.mem_cons_of_mem x hy)))

/-- C3: for every object-shaped (non-array) query response whose values
do not themselves carry a uri field (the old format's declared shape,
Omit of uri), normalization returns one entry per key, in the mapping's
iteration order — the i-th entry comes from the i-th key, with its uri
field equal to that key — and the number of entries equals the number of
keys. -/
theorem normalize_object_shape (fields : List (String × Json))
    (h : ∀ p ∈ fields, ∀ q ∈ spreadFields p.2, q.1 ≠ "uri") :
    (normalize (Json.obj fields)).length = fields.length
    ∧ List.Forall₂ (fun p e => jsonLookup e "uri" = some (Json.str p.1))
        fields (normalize (Json.obj fields)) := by
  constructor
  · simp [normalize, objectEntries]
  · show List.Forall₂ _ fields
      ((objectEntries (Json.obj fields)).map
        (fun p => Json.obj (spreadMerge p.1 (spreadFields p.2))))
    show List.Forall₂ _ fields
      (fields.map (fun p => Json.obj (spreadMerge p.1 (spreadFields p.2))))
    refine forall2_map_self _ _ _ (fun p hp => ?_)
    show (spreadMerge p.1 (spreadFields p.2)).lookup "uri" = some (Json.str p.1)
    exact lookup_spreadMerge p.1 (spreadFields p.2) (h p hp)

/-- Witness for C3 on a two-key old-format response. -/
theorem normalize_object_shape_witness :
    (∀ p ∈ [("a", Json.obj [("title", Json.str "T")]), ("b", Json.null)],
       ∀ q ∈ spreadFields p.2, q.1 ≠ "uri")
    ∧ ((normalize (Json.obj [("a", Json.obj [("title", Json.str "T")]), ("b", Json.null)])).length
         = ([("a", Json.obj [("title", Json.str "T")]), ("b", Json.null)]).length
       ∧ List.Forall₂ (fun p e => jsonLookup e "uri" = some (Json.str p.1))
           [("a", Json.obj [("title", Json.str "T")]), ("b", Json.null)]
           (normalize (Json.obj [("a", Json.obj [("title", Json.str "T")]), ("b", Json.null)]))) :=
  ⟨by
     intro p hp q hq
     simp only [List.mem_cons, List.mem_singleton] at hp
     rcases hp with hp | hp | hp
     · subst hp
       simp only [spreadFields, List.mem_cons] at hq
       rcases hq with hq | hq
       · subst hq
         decide
       · simp at hq
     · subst hp
       simp [spreadFields] at hq
     · simp at hp,
   normalize_object_shape [("a", Json.obj [("title", Json.str "T")]), ("b", Json.null)]
     (by
       intro p hp q hq
       simp only [List.mem_cons, List.mem_singleton] at hp
       rcases hp with hp | hp | hp
       · subst hp
         simp only [spreadFields, List.mem_cons] at hq
         rcases hq with hq | hq
         · subst hq
           decide
         · simp at hq
       · subst hp
         simp [spreadFields] at hq
       · simp at hp)⟩

/-! ### C7: one candidate per entry, in order, inserting the identifier -/

/-- C7: for every forest and every supplied range, suggest produces
exactly one candidate per entry — the output length equals the input
length and the i-th candidate corresponds to the i-th entry, so no
ranking or sorting happens — with every candidate's insertion text equal
to that entry's identifier and every candidate's replacement range equal
to the one supplied match range. -/
theorem suggest_one_candidate_per_entry (α : Type) (trees : List ForesterTree)
    (range : α) (showID : Bool) :
    (suggest trees range showID).length = trees.length
    ∧ List.Forall₂ (fun e it => it.insertText = e.uri ∧ it.range = range)
        trees (suggest trees range showID) := by
  constructor
  · simp [suggest]
  · exact forall2_map_self _ _ _ (fun e _ => ⟨rfl, rfl⟩)

/-! ### C8: the filter text -/

/-- C8 counterexample: the claim says absent fields contribute nothing to
the filter text, not even a separator; but the code's template literal
always inserts both spaces, so an entry with identifier "a" and no title
or taxon gets filter text "a" plus two trailing spaces, not "a". -/
theorem filter_text_separators_cex :
    (suggest [ForesterTree.mk none none [] "" [] "" "a"] (0 : Nat) false).map
        (fun it => it.filterText) = ["a  "]
    ∧ ("a  " : String) ≠ "a" := by
  refine ⟨rfl, by decide⟩

/-- C8 amended: every candidate's filter text is the identifier, a
space, the title or the empty string, a space, and the taxon or the
empty string — the two space separators are always present, an absent
field contributes only its empty string. -/
theorem filter_text_formula (α : Type) (trees : List ForesterTree)
    (range : α) (showID : Bool) :
    List.Forall₂
      (fun e it => it.filterText
        = e.uri ++ " " ++ e.title.getD "" ++ " " ++ e.taxon.getD "")
      trees (suggest trees range showID) :=
  forall2_map_self _ _ _ (fun _ _ => rfl)

/-! ### C10: no trigger match, no forest request -/

/-- C10: for every single-line prefix text on which the trigger pattern
does not match, the completion provider returns the empty candidate list
immediately and the forest is never requested — no cache query, hence no
external process invocation, takes place on that path. -/
theorem no_trigger_no_forest_request (line : Nat) (text : String)
    (forest : List ForesterTree) (showID : Bool)
    (h : tagMatch text = none) :
    provideCompletionItems line text forest showID = ([], false) := by
  unfold provideCompletionItems
  rw [h]

/-- Witness for C10 on a trigger-free line with a non-empty forest. -/
theorem no_trigger_no_forest_request_witness :
    tagMatch "no trigger here" = none
    ∧ provideCompletionItems 0 "no trigger here"
        [ForesterTree.mk (some "Hello") none [] "r" [] "p" "abc"] true = ([], false) :=
  ⟨rfl,
   no_trigger_no_forest_request 0 "no trigger here"
     [ForesterTree.mk (some "Hello") none [] "r" [] "p" "abc"] true rfl⟩

/-! ### C4 and C5: the context matcher -/

/-- Stripping a literal prefix from itself plus a tail leaves the tail. -/
theorem stripPrefixChars_append (op s : List Char) :
    stripPrefixChars op (op ++ s) = some s := by
  induction op with
  | nil => rfl
  | cons c cs ih =>
    simp only [List.cons_append, stripPrefixChars, if_pos rfl]
    exact ih

/-- The scan skips a prefix on which no alternative matches. -/
theorem scanMatch_skip (a rest : List Char) (p : Nat)
    (h : ∀ q, q < a.length → altsAt (List.drop q (a ++ rest)) = none) :
    scanMatch (a ++ rest) p = scanMatch rest (p + a.length) := by
  induction a generalizing p with
  | nil => simp
  | cons c a2 ih =>
    have h0 : altsAt (c :: (a2 ++ rest)) = none := by
      have := h 0 (by simp)
      simpa using this
    have h2 : ∀ q, q < a2.length → altsAt (List.drop q (a2 ++ rest)) = none := by
      intro q hq
      have := h (q + 1) (by simp; omega)
      simpa [List.drop_succ_cons] using this
    simp only [List.cons_append, scanMatch, List.append_eq, h0]
    rw [ih (p + 1) h2]
    simp only [List.length_cons]
    congr 1
    omega

/-- At the position where one of the four command openers starts, the
alternation matches through the first alternative, the capture group
starting right after the opener's brace. -/
theorem altsAt_opener (op : List Char) (hop : op ∈ openers) (b : List Char)
    (hb : b.all (fun c => c != '}') = true) :
    altsAt (op ++ b) = some op.length := by
  have halt1 : alt1 (op ++ b) = some op.length := by
    rcases (by simpa [openers] using hop :
        op = opTransclude ∨ op = opImport ∨ op = opExport ∨ op = opRef)
      with h | h | h | h <;>
      · subst h
        simp [alt1, openers, opTransclude, opImport, opExport, opRef,
          stripPrefixChars, hb, List.findSome?]
  have hne : ∃ c t, op ++ b = c :: t := by
    rcases (by simpa [openers] using hop :
        op = opTransclude ∨ op = opImport ∨ op = opExport ∨ op = opRef)
      with h | h | h | h <;>
      · subst h
        exact ⟨_, _, rfl⟩
  obtain ⟨c, t, hct⟩ := hne
  rw [hct] at halt1 ⊢
  simp only [altsAt, halt1]

/-- C4: for every line prefix of the form a ++ opener ++ b where opener
is one of the four command syntaxes, b (the text between the opening
brace and the cursor) contains no closing brace, and no alternative of
the pattern matches at any position inside a, the matcher matches with
the capture group starting immediately after the opening brace: the
replacement range runs from offset |a| + |opener| to the cursor and the
partial text — the rest of the prefix from that offset — is exactly b.
The witness instantiates this at the prefix "see BACKSLASH ref LBRACE ab",
giving partial text "ab" over offsets 9 to 11, the two characters after
the brace. -/
theorem matcher_command_trigger (a op b : List Char)
    (hop : op ∈ openers)
    (hb : b.all (fun c => c != '}') = true)
    (ha : ∀ q, q < a.length → altsAt (List.drop q (a ++ (op ++ b))) = none) :
    scanMatch (a ++ (op ++ b)) 0 = some (a.length + op.length)
    ∧ List.drop (a.length + op.length) (a ++ (op ++ b)) = b := by
  constructor
  · rw [scanMatch_skip a (op ++ b) 0 ha]
    have h1 := altsAt_opener op hop b hb
    have hne : ∃ c t, op ++ b = c :: t := by
      rcases (by simpa [openers] using hop :
          op = opTransclude ∨ op = opImport ∨ op = opExport ∨ op = opRef)
        with h | h | h | h <;>
        · subst h
          exact ⟨_, _, rfl⟩
    obtain ⟨c, t, hct⟩ := hne
    rw [hct] at h1 ⊢
    simp only [scanMatch, h1, Nat.zero_add]
  · have : a ++ (op ++ b) = (a ++ op) ++ b := by
      rw [List.append_assoc]
    rw [this]
    have hlen : a.length + op.length = (a ++ op).length := by
      simp
    rw [hlen, List.drop_left]

/-- Witness for C4 at the spec's concrete prefix: "see ", the ref opener,
then "ab"; the capture group starts at offset 9 = 4 + 5 and the partial
text is "ab". -/
theorem matcher_command_trigger_witness :
    (opRef ∈ openers
     ∧ (['a', 'b'].all (fun c => c != '}') = true)
     ∧ (∀ q, q < (['s', 'e', 'e', ' '] : List Char).length →
          altsAt (List.drop q (['s', 'e', 'e', ' '] ++ (opRef ++ ['a', 'b']))) = none))
    ∧ (scanMatch (['s', 'e', 'e', ' '] ++ (opRef ++ ['a', 'b'])) 0
         = some ((['s', 'e', 'e', ' '] : List Char).length + opRef.length)
       ∧ List.drop ((['s', 'e', 'e', ' '] : List Char).length + opRef.length)
           (['s', 'e', 'e', ' '] ++ (opRef ++ ['a', 'b'])) = ['a', 'b']) :=
  ⟨⟨by decide, by decide, by decide⟩,
   matcher_command_trigger ['s', 'e', 'e', ' '] opRef ['a', 'b']
     (by decide) (by decide) (by decide)⟩

/-- C5: on the prefix "[[partial" the matcher matches with partial text
"partial" (group start 2); on "[text](par" it matches with partial text
"par" (group start 7); on "no trigger here" it does not match and the
completion provider yields no candidates at all. -/
theorem matcher_concrete_cases :
    tagMatch "[[partial" = some 2
    ∧ String.mk (("[[partial" : String).toList.drop 2) = "partial"
    ∧ tagMatch "[text](par" = some 7
    ∧ String.mk (("[text](par" : String).toList.drop 7) = "par"
    ∧ tagMatch "no trigger here" = none
    ∧ provideCompletionItems 0 "no trigger here"
        [ForesterTree.mk (some "Hello") (some "note") [] "r" [] "p" "abc"] false
        = ([], false) :=
  ⟨rfl, rfl, rfl, rfl, rfl, rfl⟩

end Forester
